import Mathlib

/-!
Verification of the sysctl gateway and system helpers of
`python/vyos/utils/system.py`.

The functions under verification shell out to external processes via
`subprocess.run` (the "Command Executor").  We embed them shallowly:

* the environment's behaviour is a `Stub` (what the `sysctl` binary would
  answer: exit codes of set-commands, the value the kernel actually stores,
  and whether the binary exists at all — `subprocess.run` raises
  `FileNotFoundError` when it does not);
* the mutable kernel state plus the log of executor invocations is a
  `World`, threaded explicitly through every operation;
* a Python function that may raise becomes a Lean function into
  `Except ExecError`.

Every definition is a direct transliteration of the Python source; doc
comments cite the source lines.
-/

namespace Vyos

/-- One external process invocation made through the Command Executor
(`subprocess.run`): either a value query `sysctl -nb <name>` or an
assignment `sysctl -wq <name>=<value>`. -/
inductive Event : Type
  | readEv (name : String)
  | setEv (name value : String)
  deriving DecidableEq, Repr

/-- Failure of the Command Executor itself: `subprocess.run` raising
`FileNotFoundError` because the external binary is missing. -/
inductive ExecError : Type
  | processNotFound
  deriving DecidableEq, Repr

/-- Kernel-visible sysctl state together with the log of executor
invocations (used to express "no set-operation was invoked" and
ordering properties). -/
structure World : Type where
  kern : String → String
  trace : List Event

/-- Stubbed behaviour of the environment, playing the Command Executor of
the spec: whether the `sysctl` binary can be started at all, the exit
status reported for a value query, the exit status reported for an
assignment `key=value`, and the value the kernel actually stores after the
assignment (which may differ from the requested one — clamping). -/
structure Stub : Type where
  available : Bool
  readExit : String → Int
  setExit : String → String → Int
  setStore : (key requested old : String) → String

/-- `run(['sysctl', '-nb', name], capture_output=True)`: returns the
captured standard output (the current kernel value) together with the exit
status; raises `FileNotFoundError` when the binary is missing.  A query
does not modify kernel state; it is appended to the invocation log. -/
def runRead (st : Stub) (w : World) (name : String) :
    Except ExecError ((String × Int) × World) :=
  if st.available then
    Except.ok ((w.kern name, st.readExit name),
      { w with trace := w.trace ++ [Event.readEv name] })
  else
    Except.error ExecError.processNotFound

/-- `run(['sysctl', '-wq', f'{name}={value}'])`: returns the exit status;
the kernel value of `name` becomes whatever the environment stores for
this assignment.  The invocation is appended to the log. -/
def runSet (st : Stub) (w : World) (name value : String) :
    Except ExecError (Int × World) :=
  if st.available then
    Except.ok (st.setExit name value,
      { kern := fun k => if k = name then st.setStore name value (w.kern name) else w.kern k,
        trace := w.trace ++ [Event.setEv name value] })
  else
    Except.error ExecError.processNotFound

/-- `sysctl_read` (system.py lines 19–29):
`tmp = run(['sysctl', '-nb', name], capture_output=True)` followed by
`return tmp.stdout.decode()`.  The exit status of the query is never
inspected; a raised `FileNotFoundError` propagates. -/
def sysctl_read (st : Stub) (w : World) (name : String) :
    Except ExecError (String × World) :=
  match runRead st w name with
  | Except.error e => Except.error e
  | Except.ok ((out, _code), w') => Except.ok (out, w')

/-- The `str | int` value type of `sysctl_write`. -/
inductive Val : Type
  | s (v : String)
  | i (n : Int)
  deriving DecidableEq, Repr

/-- `if not isinstance(value, str): value = str(value)` — Python's `str`
on an `int` yields its decimal form, which is `toString` on `Int`. -/
def Val.toStr : Val → String
  | Val.s v => v
  | Val.i n => toString n

/-- `sysctl_write` (system.py lines 31–56):
convert the value to a string; return `True` without writing if the
current value already equals it; run `sysctl -wq name=value` and return
`False` on non-zero exit; re-read and return `True` exactly when the
re-read value equals the requested one. -/
def sysctl_write (st : Stub) (w : World) (name : String) (value : Val) :
    Except ExecError (Bool × World) :=
  let value := value.toStr
  match sysctl_read st w name with
  | Except.error e => Except.error e
  | Except.ok (cur, w) =>
    if cur = value then Except.ok (true, w)
    else
      match runSet st w name value with
      | Except.error e => Except.error e
      | Except.ok (code, w) =>
        if code ≠ 0 then Except.ok (false, w)
        else
          match sysctl_read st w name with
          | Except.error e => Except.error e
          | Except.ok (cur2, w) =>
            if cur2 = value then Except.ok (true, w) else Except.ok (false, w)

/-- The first loop of `sysctl_apply`:
`for key_name in sysctl_dict.keys(): sysctl_original[key_name] = sysctl_read(key_name)`
— reads every key in iteration order and returns the snapshot dict. -/
def snapshot (st : Stub) (w : World) (keys : List String) :
    Except ExecError (List (String × String) × World) :=
  match keys with
  | [] => Except.ok ([], w)
  | k :: ks =>
    match sysctl_read st w k with
    | Except.error e => Except.error e
    | Except.ok (v, w) =>
      match snapshot st w ks with
      | Except.error e => Except.error e
      | Except.ok (rest, w) => Except.ok ((k, v) :: rest, w)

/-- The write loop of `sysctl_apply` in the `revert=False` case:
`for key_name, value in sysctl_dict.items(): if not sysctl_write(...): return False`
— no rollback is attempted. -/
def applyWrites (st : Stub) (w : World) (items : List (String × String)) :
    Except ExecError (Bool × World) :=
  match items with
  | [] => Except.ok (true, w)
  | (k, v) :: rest =>
    match sysctl_write st w k (Val.s v) with
    | Except.error e => Except.error e
    | Except.ok (b, w) =>
      if b then applyWrites st w rest else Except.ok (false, w)

/-- `sysctl_apply(d, revert=False)`: snapshot every key, then run the
write loop with no rollback.  This is the exact body of `sysctl_apply`
specialised to `revert=False` (under which the recursive branch is dead),
so the nested rollback call of the `revert=True` case is this function. -/
def sysctl_apply_norevert (st : Stub) (w : World) (d : List (String × String)) :
    Except ExecError (Bool × World) :=
  match snapshot st w (d.map Prod.fst) with
  | Except.error e => Except.error e
  | Except.ok (_orig, w) => applyWrites st w d

/-- The write loop of `sysctl_apply` in the `revert=True` case: on the
first failing `sysctl_write`, run `sysctl_apply(sysctl_original,
revert=False)` discarding its result, and return `False`. -/
def applyWritesRevert (st : Stub) (w : World) (items orig : List (String × String)) :
    Except ExecError (Bool × World) :=
  match items with
  | [] => Except.ok (true, w)
  | (k, v) :: rest =>
    match sysctl_write st w k (Val.s v) with
    | Except.error e => Except.error e
    | Except.ok (b, w) =>
      if b then applyWritesRevert st w rest orig
      else
        match sysctl_apply_norevert st w orig with
        | Except.error e => Except.error e
        | Except.ok (_, w) => Except.ok (false, w)

/-- `sysctl_apply` (system.py lines 58–80).  A Python `dict[str, str]` is
an insertion-ordered association list with pairwise-distinct keys; we
embed it as `List (String × String)`.  The recursion of the source is
bounded: the nested call passes `revert=False`, under which `sysctl_apply`
is `sysctl_apply_norevert`, so the definition unfolds the recursion once
(`sysctl_apply st w d false = sysctl_apply_norevert st w d` holds
definitionally, see `sysctl_apply_false_eq`). -/
def sysctl_apply (st : Stub) (w : World) (d : List (String × String)) (revert : Bool) :
    Except ExecError (Bool × World) :=
  match snapshot st w (d.map Prod.fst) with
  | Except.error e => Except.error e
  | Except.ok (orig, w) =>
    if revert then applyWritesRevert st w d orig else applyWrites st w d

theorem sysctl_apply_false_eq (st : Stub) (w : World) (d : List (String × String)) :
    sysctl_apply st w d false = sysctl_apply_norevert st w d := by
  unfold sysctl_apply sysctl_apply_norevert
  cases snapshot st w (d.map Prod.fst) with
  | error e => rfl
  | ok p => rfl

/-- The boolean (or string) outcome of an operation, `none` when the
operation raised. -/
def resultOk {α : Type} : Except ExecError (α × World) → Option α
  | Except.ok (a, _) => some a
  | Except.error _ => none

/-- Kernel value of `k` after the operation, `none` when it raised. -/
def kernAfter {α : Type} : Except ExecError (α × World) → String → Option String
  | Except.ok (_, w), k => some (w.kern k)
  | Except.error _, _ => none

/-- Full executor-invocation log after the operation, `none` when it
raised. -/
def traceAfter {α : Type} : Except ExecError (α × World) → Option (List Event)
  | Except.ok (_, w) => some w.trace
  | Except.error _ => none

/-! ### Concrete environments used in witnesses and counterexamples -/

/-- Fully cooperative environment: every command runs, every assignment
exits 0 and stores exactly the requested value. -/
def stubOk : Stub :=
  { available := true, readExit := fun _ => 0,
    setExit := fun _ _ => 0, setStore := fun _ v _ => v }

/-- Environment whose `sysctl` binary is missing (`subprocess.run` raises
`FileNotFoundError`). -/
def stubDown : Stub :=
  { available := false, readExit := fun _ => 0,
    setExit := fun _ _ => 0, setStore := fun _ v _ => v }

/-- Environment where every value query exits with status 1 while the
binary itself runs fine. -/
def stubExit1 : Stub :=
  { available := true, readExit := fun _ => 1,
    setExit := fun _ _ => 0, setStore := fun _ v _ => v }

/-- Environment that accepts every assignment (exit 0) but clamps every
stored value to "4". -/
def stubClamp : Stub :=
  { available := true, readExit := fun _ => 0,
    setExit := fun _ _ => 0, setStore := fun _ _ _ => "4" }

/-- Initial world: every key currently reads "0", nothing invoked yet. -/
def w0 : World := { kern := fun _ => "0", trace := [] }

/-- Initial world: every key currently reads "5", nothing invoked yet. -/
def wFive : World := { kern := fun _ => "5", trace := [] }

/-! ### Claims -/

/-- **C10.** `sysctl_apply` on an empty tunable set returns `True` and
hands back the world unchanged — in particular the invocation log is
unchanged, so the Command Executor is never invoked (no reads, no
writes) — for either value of the `revert` flag. -/
theorem claim_C10 (st : Stub) (w : World) (revert : Bool) :
    sysctl_apply st w [] revert = Except.ok (true, w) := by
  cases revert <;> rfl

/-- **C7.** `sysctl_write` converts an integer value to its decimal string
form before any comparison or write: the call with integer `n` is the
call with the string `toString n`.  Concretely, `write("k", 5)` with
current value "0" sends the set-command carrying the string "5", and with
current value "5" compares equal against "5" and issues no set-command. -/
theorem claim_C7 :
    (∀ (st : Stub) (w : World) (k : String) (n : Int),
      sysctl_write st w k (Val.i n) = sysctl_write st w k (Val.s (toString n))) ∧
    traceAfter (sysctl_write stubOk w0 "k" (Val.i 5)) =
      some [Event.readEv "k", Event.setEv "k" "5", Event.readEv "k"] ∧
    resultOk (sysctl_write stubOk wFive "k" (Val.i 5)) = some true ∧
    traceAfter (sysctl_write stubOk wFive "k" (Val.i 5)) = some [Event.readEv "k"] :=
  ⟨fun _ _ _ _ => rfl, by decide, by decide, by decide⟩

/-- **C4.** If the current value of the key already equals the (converted)
target, `sysctl_write` returns `True`, every kernel value is untouched,
and the only executor invocation is the single value query — the
set-operation is never invoked. -/
theorem claim_C4 (st : Stub) (w : World) (k : String) (v : Val)
    (havail : st.available = true) (heq : w.kern k = v.toStr) :
    resultOk (sysctl_write st w k v) = some true ∧
    (∀ k', kernAfter (sysctl_write st w k v) k' = some (w.kern k')) ∧
    traceAfter (sysctl_write st w k v) = some (w.trace ++ [Event.readEv k]) := by
  simp [sysctl_write, sysctl_read, runRead, havail, heq, resultOk, kernAfter, traceAfter]

theorem claim_C4_witness :
    resultOk (sysctl_write stubOk wFive "k" (Val.s "5")) = some true ∧
    kernAfter (sysctl_write stubOk wFive "k" (Val.s "5")) "k" = some (wFive.kern "k") ∧
    traceAfter (sysctl_write stubOk wFive "k" (Val.s "5")) =
      some (wFive.trace ++ [Event.readEv "k"]) :=
  ⟨(claim_C4 stubOk wFive "k" (Val.s "5") rfl rfl).1,
   (claim_C4 stubOk wFive "k" (Val.s "5") rfl rfl).2.1 "k",
   (claim_C4 stubOk wFive "k" (Val.s "5") rfl rfl).2.2⟩

/-- **C2.** When the current value differs from the (string) target and
the set-command exits with status zero, `sysctl_write` returns — without
raising — exactly the comparison of the re-read value (what the kernel
actually stored) with the target: `True` on a verified write, `False` on
a verification mismatch. -/
theorem claim_C2 (st : Stub) (w : World) (k v : String)
    (havail : st.available = true) (hne : w.kern k ≠ v)
    (hexit : st.setExit k v = 0) :
    resultOk (sysctl_write st w k (Val.s v)) =
      some (decide (st.setStore k v (w.kern k) = v)) := by
  by_cases hsv : st.setStore k v (w.kern k) = v <;>
    simp [sysctl_write, sysctl_read, runRead, runSet, Val.toStr,
      havail, hne, hexit, hsv, resultOk]

theorem claim_C2_witness :
    resultOk (sysctl_write stubClamp w0 "k" (Val.s "5")) = some false := by
  have h := claim_C2 stubClamp w0 "k" "5" rfl (by decide) rfl
  simpa using h

/-- **C3 (amended).** `sysctl_read` propagates a raised executor failure
(missing external binary) to its caller untouched; but a non-zero exit
status of the query command is not a failure: whenever the process runs
at all, `sysctl_read` returns the captured standard output successfully
and never inspects the exit status. -/
theorem claim_C3 :
    (∀ (st : Stub) (w : World) (k : String), st.available = false →
      sysctl_read st w k = Except.error ExecError.processNotFound) ∧
    (∀ (st : Stub) (w : World) (k : String), st.available = true →
      resultOk (sysctl_read st w k) = some (w.kern k)) := by
  constructor
  · intro st w k h
    simp [sysctl_read, runRead, h]
  · intro st w k h
    simp [sysctl_read, runRead, resultOk, h]

/-- **C3 counterexample.** The claim as stated says `read` fails — by
propagating an executor-reported failure — when the query command exits
non-zero.  In an environment whose value query exits with status 1,
`sysctl_read` nevertheless succeeds, returning the captured output. -/
theorem claim_C3_counterexample :
    stubExit1.readExit "k" = 1 ∧
    resultOk (sysctl_read stubExit1 w0 "k") = some "0" := by
  decide

theorem claim_C3_witness :
    sysctl_read stubDown w0 "k" = Except.error ExecError.processNotFound ∧
    resultOk (sysctl_read stubExit1 w0 "k") = some "0" :=
  ⟨claim_C3.1 stubDown w0 "k" rfl, (claim_C3.2 stubExit1 w0 "k" rfl).trans rfl⟩

/-! ### Explicit outcomes under an available executor

When the external binary exists, no operation raises; the following
definitions give the explicit outcome and the lemmas prove the
operations equal to them. -/

/-- World after a value query: state untouched, query logged. -/
def readWorld (w : World) (k : String) : World :=
  { w with trace := w.trace ++ [Event.readEv k] }

/-- World after an assignment: the key takes whatever the environment
stores, the assignment is logged. -/
def setWorld (st : Stub) (w : World) (k v : String) : World :=
  { kern := fun k' => if k' = k then st.setStore k v (w.kern k) else w.kern k',
    trace := w.trace ++ [Event.setEv k v] }

theorem sysctl_read_ok (st : Stub) (h : st.available = true) (w : World) (k : String) :
    sysctl_read st w k = Except.ok (w.kern k, readWorld w k) := by
  simp [sysctl_read, runRead, readWorld, h]

/-- Explicit outcome of `sysctl_write` when the executor is available. -/
def writeResult (st : Stub) (w : World) (k : String) (v : Val) : Bool × World :=
  let value := v.toStr
  let w1 := readWorld w k
  if w.kern k = value then (true, w1)
  else
    let w2 := setWorld st w1 k value
    if st.setExit k value ≠ 0 then (false, w2)
    else
      let w3 := readWorld w2 k
      if w2.kern k = value then (true, w3) else (false, w3)

theorem sysctl_write_eq (st : Stub) (h : st.available = true) (w : World)
    (k : String) (v : Val) :
    sysctl_write st w k v = Except.ok (writeResult st w k v) := by
  rw [sysctl_write, writeResult, sysctl_read_ok st h]
  by_cases hcur : w.kern k = v.toStr
  · simp [hcur]
  · simp only [hcur, if_false, runSet, h, if_true]
    by_cases hcode : st.setExit k v.toStr ≠ 0
    · simp [hcode, setWorld, readWorld]
    · simp only [hcode, if_false, if_true]
      rw [sysctl_read_ok st h]
      simp only [setWorld, readWorld]
      exact (apply_ite Except.ok _ _ _).symm

/-- A write only ever changes its own key. -/
theorem writeResult_kern_frame (st : Stub) (w : World) (k : String) (v : Val)
    (k' : String) (hne : k' ≠ k) :
    (writeResult st w k v).2.kern k' = w.kern k' := by
  rw [writeResult]
  dsimp only
  split
  · rfl
  · split
    · simp [setWorld, readWorld, hne]
    · split <;> simp [setWorld, readWorld, hne]

/-- Every event a write appends is a query of its key or the one
assignment of its (converted) value to its key. -/
theorem writeResult_trace (st : Stub) (w : World) (k : String) (v : Val) :
    ∀ e ∈ (writeResult st w k v).2.trace,
      e ∈ w.trace ∨ e = Event.readEv k ∨ e = Event.setEv k v.toStr := by
  rw [writeResult]
  dsimp only
  split
  · intro e he
    simp only [readWorld, List.mem_append, List.mem_singleton] at he
    tauto
  · split
    · intro e he
      simp only [setWorld, readWorld, List.mem_append, List.mem_singleton] at he
      tauto
    · split <;>
        · intro e he
          simp only [setWorld, readWorld, List.mem_append, List.mem_singleton] at he
          tauto

theorem snapshot_eq (st : Stub) (h : st.available = true) :
    ∀ (keys : List String) (w : World),
      snapshot st w keys =
        Except.ok (keys.map (fun k => (k, w.kern k)),
          { w with trace := w.trace ++ keys.map Event.readEv }) := by
  intro keys
  induction keys with
  | nil => intro w; simp [snapshot]
  | cons k ks ih =>
    intro w
    rw [snapshot, sysctl_read_ok st h]
    dsimp only
    rw [ih]
    simp [readWorld, List.append_assoc]

theorem applyWrites_ok (st : Stub) (h : st.available = true) :
    ∀ (items : List (String × String)) (w : World),
      ∃ b w', applyWrites st w items = Except.ok (b, w') := by
  intro items
  induction items with
  | nil => intro w; exact ⟨true, w, rfl⟩
  | cons kv rest ih =>
    obtain ⟨k, v⟩ := kv
    intro w
    rw [applyWrites, sysctl_write_eq st h]
    rcases hw : writeResult st w k (Val.s v) with ⟨b1, w1⟩
    dsimp only
    cases b1 with
    | false => exact ⟨false, w1, rfl⟩
    | true =>
      obtain ⟨b, w', hb⟩ := ih w1
      exact ⟨b, w', hb⟩

theorem sysctl_apply_norevert_ok (st : Stub) (h : st.available = true)
    (d : List (String × String)) (w : World) :
    ∃ b w', sysctl_apply_norevert st w d = Except.ok (b, w') := by
  rw [sysctl_apply_norevert, snapshot_eq st h]
  exact applyWrites_ok st h d _

/-- The boolean outcome of the write loop is the same with and without
rollback: the rollback neither changes nor surfaces anything in the
returned value. -/
theorem applyWritesRevert_vs (st : Stub) (h : st.available = true) :
    ∀ (items orig : List (String × String)) (w : World),
      resultOk (applyWritesRevert st w items orig) = resultOk (applyWrites st w items) := by
  intro items
  induction items with
  | nil => intro orig w; rfl
  | cons kv rest ih =>
    obtain ⟨k, v⟩ := kv
    intro orig w
    rw [applyWritesRevert, applyWrites, sysctl_write_eq st h]
    rcases hw : writeResult st w k (Val.s v) with ⟨b1, w1⟩
    dsimp only
    cases b1 with
    | true => exact ih orig w1
    | false =>
      obtain ⟨b2, w2, hn⟩ := sysctl_apply_norevert_ok st h orig w1
      rw [hn]
      rfl

/-- Environment in which every assignment to key "B" fails (exit 1, value
unchanged) while every other assignment succeeds and stores the
requested value. -/
def stubBfail : Stub :=
  { available := true, readExit := fun _ => 0,
    setExit := fun k _ => if k = "B" then 1 else 0,
    setStore := fun k v old => if k = "B" then old else v }

/-- **C1.** With `revert=True`, the boolean outcome of `sysctl_apply` is
exactly that of the same run with `revert=False` — a failing write yields
`False` regardless of the rollback's own outcome, a clean run yields
`True`.  Concretely, applying `{A: "1", B: "2"}` from state `A=B="0"`
under an environment where B's write always fails: the batch returns
`False`, A ends back at its pre-batch value "0", and the invocation log
shows the snapshot, A written to "1", B's failing write, then the nested
no-revert apply of the snapshot writing A back to "0" (B, never changed,
is only re-read). -/
theorem claim_C1 :
    (∀ (st : Stub) (w : World) (d : List (String × String)), st.available = true →
      resultOk (sysctl_apply st w d true) = resultOk (sysctl_apply st w d false)) ∧
    resultOk (sysctl_apply stubBfail w0 [("A", "1"), ("B", "2")] true) = some false ∧
    kernAfter (sysctl_apply stubBfail w0 [("A", "1"), ("B", "2")] true) "A" = some "0" ∧
    traceAfter (sysctl_apply stubBfail w0 [("A", "1"), ("B", "2")] true) =
      some [Event.readEv "A", Event.readEv "B",
            Event.readEv "A", Event.setEv "A" "1", Event.readEv "A",
            Event.readEv "B", Event.setEv "B" "2",
            Event.readEv "A", Event.readEv "B",
            Event.readEv "A", Event.setEv "A" "0", Event.readEv "A",
            Event.readEv "B"] := by
  refine ⟨?_, by decide, by decide, by decide⟩
  intro st w d h
  rw [sysctl_apply, sysctl_apply, snapshot_eq st h]
  exact applyWritesRevert_vs st h d _ _

theorem claim_C1_witness :
    resultOk (sysctl_apply stubBfail w0 [("A", "1"), ("B", "2")] true) =
      resultOk (sysctl_apply stubBfail w0 [("A", "1"), ("B", "2")] false) :=
  claim_C1.1 stubBfail w0 [("A", "1"), ("B", "2")] rfl

/-- In the no-rollback write loop, every appended event is a query or an
assignment of one of the caller's own key/value pairs. -/
theorem applyWrites_events (st : Stub) (h : st.available = true) :
    ∀ (items : List (String × String)) (w : World) (b : Bool) (w' : World),
      applyWrites st w items = Except.ok (b, w') →
      ∀ e ∈ w'.trace, e ∈ w.trace ∨
        (∃ k, e = Event.readEv k ∧ k ∈ items.map Prod.fst) ∨
        (∃ k v, e = Event.setEv k v ∧ (k, v) ∈ items) := by
  intro items
  induction items with
  | nil =>
    intro w b w' heq e he
    rw [applyWrites] at heq
    cases heq
    exact Or.inl he
  | cons kv rest ih =>
    obtain ⟨k, v⟩ := kv
    intro w b w' heq e he
    rw [applyWrites, sysctl_write_eq st h] at heq
    rcases hw : writeResult st w k (Val.s v) with ⟨b1, w1⟩
    rw [hw] at heq
    dsimp only at heq
    have hwtr : ∀ e ∈ w1.trace,
        e ∈ w.trace ∨ e = Event.readEv k ∨ e = Event.setEv k v := by
      have := writeResult_trace st w k (Val.s v)
      rw [hw] at this
      exact this
    cases b1 with
    | false =>
      cases heq
      rcases hwtr e he with h1 | h1 | h1
      · exact Or.inl h1
      · exact Or.inr (Or.inl ⟨k, h1, by simp⟩)
      · exact Or.inr (Or.inr ⟨k, v, h1, by simp⟩)
    | true =>
      rcases ih w1 b w' heq e he with h1 | ⟨k', h1, hk'⟩ | ⟨k', v', h1, hkv'⟩
      · rcases hwtr e h1 with h2 | h2 | h2
        · exact Or.inl h2
        · exact Or.inr (Or.inl ⟨k, h2, by simp⟩)
        · exact Or.inr (Or.inr ⟨k, v, h2, by simp⟩)
      · exact Or.inr (Or.inl ⟨k', h1, by simp [List.mem_map] at hk' ⊢; tauto⟩)
      · exact Or.inr (Or.inr ⟨k', v', h1, by simp [hkv']⟩)

/-- Environment in which every assignment fails: exit 1, value kept. -/
def stubFailAll : Stub :=
  { available := true, readExit := fun _ => 0,
    setExit := fun _ _ => 1, setStore := fun _ _ old => old }

/-- **C5.** With `revert=False`, `sysctl_apply` never rolls back: every
event it appends to the invocation log is a query of one of the caller's
keys or an assignment of one of the caller's own key/value pairs (a
rollback would assign snapshot values).  Concretely,
`apply({A: "1"}, revert=False)` with A's write failing returns `False`
and the whole log is the snapshot query, the write's pre-check query, and
the single failing assignment — no rollback call occurs, so the recursion
never nests at all. -/
theorem claim_C5 :
    (∀ (st : Stub) (w : World) (d : List (String × String)) (t : List Event),
      st.available = true →
      traceAfter (sysctl_apply st w d false) = some t →
      ∀ e ∈ t, e ∈ w.trace ∨
        (∃ k, e = Event.readEv k ∧ k ∈ d.map Prod.fst) ∨
        (∃ k v, e = Event.setEv k v ∧ (k, v) ∈ d)) ∧
    resultOk (sysctl_apply stubFailAll w0 [("A", "1")] false) = some false ∧
    traceAfter (sysctl_apply stubFailAll w0 [("A", "1")] false) =
      some [Event.readEv "A", Event.readEv "A", Event.setEv "A" "1"] := by
  refine ⟨?_, by decide, by decide⟩
  intro st w d t h htr e he
  rw [sysctl_apply_false_eq, sysctl_apply_norevert, snapshot_eq st h] at htr
  dsimp only at htr
  obtain ⟨b, w', heq⟩ := applyWrites_ok st h d
      { w with trace := w.trace ++ List.map Event.readEv (d.map Prod.fst) }
  rw [heq] at htr
  have ht : t = w'.trace := by
    simpa [traceAfter] using htr.symm
  subst ht
  rcases applyWrites_events st h d _ b w' heq e he with h1 | h1 | h1
  · simp only [List.mem_append, List.mem_map] at h1
    rcases h1 with h2 | ⟨k, hk, rfl⟩
    · exact Or.inl h2
    · exact Or.inr (Or.inl ⟨k, rfl, by simpa [List.mem_map] using hk⟩)
  · exact Or.inr (Or.inl h1)
  · exact Or.inr (Or.inr h1)

theorem claim_C5_witness :
    Event.setEv "A" "1" ∈ (w0).trace ∨
    (∃ k, Event.setEv "A" "1" = Event.readEv k ∧
      k ∈ ([("A", "1")] : List (String × String)).map Prod.fst) ∨
    (∃ k v, Event.setEv "A" "1" = Event.setEv k v ∧
      (k, v) ∈ ([("A", "1")] : List (String × String))) :=
  claim_C5.1 stubFailAll w0 [("A", "1")]
    [Event.readEv "A", Event.readEv "A", Event.setEv "A" "1"] rfl (by decide)
    (Event.setEv "A" "1") (by decide)

/-- Writing a key back to its value in a reference state `w0'` succeeds
and lands the key exactly there, whenever the environment accepts and
faithfully stores assignments of reference values. -/
theorem writeResult_restore (st : Stub) (w0' : World)
    (hexit : ∀ k, st.setExit k (w0'.kern k) = 0)
    (hstore : ∀ k old, st.setStore k (w0'.kern k) old = w0'.kern k)
    (w : World) (k : String) :
    (writeResult st w k (Val.s (w0'.kern k))).1 = true ∧
    (writeResult st w k (Val.s (w0'.kern k))).2.kern k = w0'.kern k := by
  rw [writeResult]
  simp only [Val.toStr]
  by_cases hcur : w.kern k = w0'.kern k
  · rw [if_pos hcur]
    exact ⟨rfl, hcur⟩
  · have h2 : (setWorld st (readWorld w k) k (w0'.kern k)).kern k = w0'.kern k := by
      simp [setWorld, readWorld, hstore]
    rw [if_neg hcur, if_neg (by simp [hexit k]), if_pos h2]
    exact ⟨rfl, h2⟩

/-- Re-applying the snapshot of a reference state restores every
snapshotted key to its reference value and leaves every other key
untouched, whenever the environment faithfully stores reference values. -/
theorem applyWrites_restore (st : Stub) (h : st.available = true) (w0' : World)
    (hexit : ∀ k, st.setExit k (w0'.kern k) = 0)
    (hstore : ∀ k old, st.setStore k (w0'.kern k) old = w0'.kern k) :
    ∀ (keys : List String) (w : World),
      ∃ w', applyWrites st w (keys.map (fun k => (k, w0'.kern k))) = Except.ok (true, w') ∧
        (∀ k, k ∈ keys → w'.kern k = w0'.kern k) ∧
        (∀ k, k ∉ keys → w'.kern k = w.kern k) := by
  intro keys
  induction keys with
  | nil =>
    intro w
    exact ⟨w, rfl, by simp, fun _ _ => rfl⟩
  | cons k ks ih =>
    intro w
    rw [List.map_cons, applyWrites, sysctl_write_eq st h]
    rcases hw : writeResult st w k (Val.s (w0'.kern k)) with ⟨b1, w1⟩
    have hres := writeResult_restore st w0' hexit hstore w k
    rw [hw] at hres
    obtain ⟨hb1, hk1⟩ := hres
    subst hb1
    dsimp only
    obtain ⟨w', happ, hin, hout⟩ := ih w1
    refine ⟨w', happ, ?_, ?_⟩
    · intro k' hk'
      rcases List.mem_cons.mp hk' with rfl | hks
      · by_cases hkks : k' ∈ ks
        · exact hin k' hkks
        · exact (hout k' hkks).trans hk1
      · exact hin k' hks
    · intro k' hk'
      have hne : k' ≠ k := fun hkk => hk' (hkk ▸ List.mem_cons_self k ks)
      have hks : k' ∉ ks := fun hkk => hk' (List.mem_cons_of_mem _ hkk)
      have hframe : w1.kern k' = w.kern k' := by
        have := writeResult_kern_frame st w k (Val.s (w0'.kern k)) k' hne
        rw [hw] at this
        exact this
      exact (hout k' hks).trans hframe

theorem map_fst_pairs (f : String → String) (keys : List String) :
    (keys.map (fun k => (k, f k))).map Prod.fst = keys := by
  induction keys with
  | nil => rfl
  | cons a l ih => simpa using ih

/-- The write loop with rollback: if it returns `False`, and the
environment faithfully stores reference values, the final kernel state is
the reference state — the rollback restored everything the writes
touched, and nothing outside the snapshot was ever modified. -/
theorem applyWritesRevert_restore (st : Stub) (h : st.available = true) (w0' : World)
    (hexit : ∀ k, st.setExit k (w0'.kern k) = 0)
    (hstore : ∀ k old, st.setStore k (w0'.kern k) old = w0'.kern k)
    (keys0 : List String) :
    ∀ (items : List (String × String)) (w : World),
      (∀ kv ∈ items, Prod.fst kv ∈ keys0) →
      (∀ k, k ∉ keys0 → w.kern k = w0'.kern k) →
      ∃ b w', applyWritesRevert st w items (keys0.map (fun k => (k, w0'.kern k))) =
          Except.ok (b, w') ∧
        (b = false → ∀ k, w'.kern k = w0'.kern k) := by
  intro items
  induction items with
  | nil =>
    intro w _ _
    exact ⟨true, w, rfl, by simp⟩
  | cons kv rest ih =>
    obtain ⟨k, v⟩ := kv
    intro w hsub hframe
    rw [applyWritesRevert, sysctl_write_eq st h]
    rcases hw : writeResult st w k (Val.s v) with ⟨b1, w1⟩
    dsimp only
    have hframe1 : ∀ k', k' ∉ keys0 → w1.kern k' = w0'.kern k' := by
      intro k' hk'
      have hne : k' ≠ k := by
        rintro rfl
        exact hk' (hsub (k', v) (List.mem_cons_self _ _))
      have := writeResult_kern_frame st w k (Val.s v) k' hne
      rw [hw] at this
      exact this.trans (hframe k' hk')
    cases b1 with
    | true =>
      exact ih w1 (fun kv' hkv' => hsub kv' (List.mem_cons_of_mem _ hkv')) hframe1
    | false =>
      rw [sysctl_apply_norevert]
      rw [map_fst_pairs, snapshot_eq st h]
      dsimp only
      obtain ⟨w', happ, hin, hout⟩ := applyWrites_restore st h w0' hexit hstore keys0
        { kern := w1.kern, trace := w1.trace ++ List.map Event.readEv keys0 }
      rw [happ]
      refine ⟨false, w', rfl, fun _ k' => ?_⟩
      by_cases hk0 : k' ∈ keys0
      · exact hin k' hk0
      · exact (hout k' hk0).trans (hframe1 k' hk0)

/-- Environment in which assigning the value "2" to any key fails (exit
1) while every assignment stores its requested value. -/
def stubVal2fails : Stub :=
  { available := true, readExit := fun _ => 0,
    setExit := fun _ v => if v = "2" then 1 else 0,
    setStore := fun _ v _ => v }

/-- Environment in which only the assignment A:="1" succeeds; every other
assignment — including the rollback's A:="0" — fails with exit 1 and
leaves the value unchanged. -/
def stubRestoreFails : Stub :=
  { available := true, readExit := fun _ => 0,
    setExit := fun k v => if k = "A" && v = "1" then 0 else 1,
    setStore := fun k v old => if k = "A" && v = "1" then v else old }

/-- **C6 counterexample.** Applying `{A: "1", B: "2"}` with
`revert=True` from state `A=B="0"` in an environment where only the write
A:="1" can succeed: B's write fails, the batch returns `False`, A was
attempted before the failure with pre-batch value "0" — yet A ends at
"1": the rollback did *not* restore it (its own write failed), refuting
the claim that the rollback restores every attempted key. -/
theorem claim_C6_counterexample :
    resultOk (sysctl_apply stubRestoreFails w0 [("A", "1"), ("B", "2")] true) = some false ∧
    w0.kern "A" = "0" ∧
    kernAfter (sysctl_apply stubRestoreFails w0 [("A", "1"), ("B", "2")] true) "A" =
      some "1" := by
  decide

/-- **C6 (amended).** When `sysctl_apply` with `revert=True` fails, the
rollback re-applies the full pre-batch snapshot (every key of the set, in
the caller's order) through a nested no-revert apply; restoration is
best-effort: whenever the environment accepts every assignment of a
pre-batch value and stores it faithfully, every key of the set ends back
at its snapshotted pre-apply value and no key outside the set is ever
modified — the final kernel state equals the pre-apply state on all
keys. -/
theorem claim_C6 (st : Stub) (w : World) (d : List (String × String))
    (h : st.available = true)
    (hexit : ∀ k, st.setExit k (w.kern k) = 0)
    (hstore : ∀ k old, st.setStore k (w.kern k) old = w.kern k)
    (hfail : resultOk (sysctl_apply st w d true) = some false) :
    ∀ k, kernAfter (sysctl_apply st w d true) k = some (w.kern k) := by
  intro k
  rw [sysctl_apply, snapshot_eq st h] at hfail ⊢
  dsimp only at hfail ⊢
  obtain ⟨b, w', heq, himp⟩ := applyWritesRevert_restore st h w hexit hstore
    (d.map Prod.fst) d
    { kern := w.kern, trace := w.trace ++ List.map Event.readEv (d.map Prod.fst) }
    (fun kv hkv => List.mem_map_of_mem Prod.fst hkv)
    (fun _ _ => rfl)
  rw [heq] at hfail ⊢
  have hb : b = false := by
    simpa [resultOk] using hfail
  simp [kernAfter, himp hb k]

theorem claim_C6_witness :
    resultOk (sysctl_apply stubVal2fails w0 [("A", "1"), ("B", "2")] true) = some false ∧
    kernAfter (sysctl_apply stubVal2fails w0 [("A", "1"), ("B", "2")] true) "B" =
      some (w0.kern "B") :=
  ⟨by decide,
   claim_C6 stubVal2fails w0 [("A", "1"), ("B", "2")] rfl (fun _ => rfl)
     (fun _ _ => rfl) (by decide) "B"⟩

/-! ### `get_secure_boot_state` -/

/-- `strHasAt needle hay`: `needle` occurs at the very start of `hay`. -/
def strHasAt : List Char → List Char → Bool
  | [], _ => true
  | _ :: _, [] => false
  | n :: ns, c :: cs => n == c && strHasAt ns cs

/-- Python's substring test `needle in hay`. -/
def strIn (needle : List Char) : List Char → Bool
  | [] => strHasAt needle []
  | c :: t => strHasAt needle (c :: t) || strIn needle t

theorem strHasAt_iff (n : List Char) :
    ∀ h : List Char, strHasAt n h = true ↔ ∃ r, h = n ++ r := by
  induction n with
  | nil => intro h; simp [strHasAt]
  | cons c cs ih =>
    intro h
    cases h with
    | nil => simp [strHasAt]
    | cons d ds =>
      simp only [strHasAt, Bool.and_eq_true, beq_iff_eq, ih ds]
      constructor
      · rintro ⟨rfl, r, rfl⟩
        exact ⟨r, rfl⟩
      · rintro ⟨r, heq⟩
        rw [List.cons_append] at heq
        injection heq with h1 h2
        exact ⟨h1.symm, r, h2⟩

theorem strIn_iff (n : List Char) :
    ∀ h : List Char, strIn n h = true ↔ ∃ l r, h = l ++ n ++ r := by
  intro h
  induction h with
  | nil =>
    rw [strIn, strHasAt_iff]
    constructor
    · rintro ⟨r, hr⟩
      exact ⟨[], r, by simpa using hr⟩
    · rintro ⟨l, r, hlr⟩
      have h0 : l ++ n ++ r = [] := hlr.symm
      rw [List.append_eq_nil] at h0
      obtain ⟨h1, -⟩ := h0
      rw [List.append_eq_nil] at h1
      exact ⟨[], by simp [h1.2]⟩
  | cons c t ih =>
    rw [strIn, Bool.or_eq_true, strHasAt_iff, ih]
    constructor
    · rintro (⟨r, hr⟩ | ⟨l, r, hlr⟩)
      · exact ⟨[], r, by simpa using hr⟩
      · exact ⟨c :: l, r, by simp [hlr]⟩
    · rintro ⟨l, r, hlr⟩
      cases l with
      | nil => exact Or.inl ⟨r, by simpa using hlr⟩
      | cons d l' =>
        rw [List.cons_append, List.cons_append] at hlr
        injection hlr with h1 h2
        exact Or.inr ⟨l', r, by simpa using h2⟩

/-- `get_secure_boot_state` (system.py lines 143–149).  The collaborators
are parameters: `is_uefi` is what `is_uefi_system()` reports, and
`mokutil_output` the captured output of `cmd('mokutil --sb-state')`,
`none` when that command would raise.  On a non-UEFI system the function
returns `False` before the command is consulted (so `some false` even
when the command could only fail); otherwise `bool('enabled' in tmp)`. -/
def get_secure_boot_state (is_uefi : Bool) (mokutil_output : Option String) :
    Option Bool :=
  if !is_uefi then some false
  else
    match mokutil_output with
    | none => none
    | some tmp => some (strIn ("enabled".toList) tmp.toList)

/-- **C9.** On a non-UEFI system `get_secure_boot_state` returns `False`
immediately, whatever the status-query would do — even when it would
fail, proving the query is never run; on a UEFI system it returns `True`
exactly when the query's output contains the literal substring
"enabled". -/
theorem claim_C9 :
    (∀ q : Option String, get_secure_boot_state false q = some false) ∧
    (∀ out : String, get_secure_boot_state true (some out) = some true ↔
      ∃ l r, out.toList = l ++ ("enabled".toList) ++ r) := by
  constructor
  · intro q
    rfl
  · intro out
    have hrw : get_secure_boot_state true (some out) =
        some (strIn ("enabled".toList) out.toList) := rfl
    rw [hrw, Option.some_inj]
    exact strIn_iff ("enabled".toList) out.toList

/-! ### `get_load_averages` -/

/-- The regex class `\s` on the ASCII whitespace it can meet here. -/
def isSpaceC (c : Char) : Bool :=
  c = ' ' || c = '\t' || c = '\n' || c = '\r' || c = '\x0b' || c = '\x0c'

/-- The regex class `[0-9\.]`. -/
def isFieldC (c : Char) : Bool := ('0' ≤ c && c ≤ '9') || c = '.'

/-- One attempted match of the pattern
`\s*(?P<one>[0-9\.]+)\s+(?P<five>[0-9\.]+)\s+(?P<fifteen>[0-9\.]+)\s*`
at a fixed position, returning the three captures.  The classes `\s` and
`[0-9\.]` are disjoint, so greedy maximal munch needs no backtracking and
is exactly the regex semantics. -/
def matchLoadAt (cs : List Char) : Option (String × String × String) :=
  let cs1 := cs.dropWhile isSpaceC
  let f1 := cs1.takeWhile isFieldC
  let r1 := cs1.dropWhile isFieldC
  if f1.isEmpty then none
  else
    let ws1 := r1.takeWhile isSpaceC
    let r2 := r1.dropWhile isSpaceC
    if ws1.isEmpty then none
    else
      let f2 := r2.takeWhile isFieldC
      let r3 := r2.dropWhile isFieldC
      if f2.isEmpty then none
      else
        let ws2 := r3.takeWhile isSpaceC
        let r4 := r3.dropWhile isSpaceC
        if ws2.isEmpty then none
        else
          let f3 := r4.takeWhile isFieldC
          if f3.isEmpty then none
          else some (String.mk f1, String.mk f2, String.mk f3)

/-- `re.search`: try the pattern at each position, leftmost match
wins. -/
def searchLoad : List Char → Option (String × String × String)
  | [] => matchLoadAt []
  | c :: cs =>
    match matchLoadAt (c :: cs) with
    | some r => some r
    | none => searchLoad cs

/-- Value of a string of decimal digits. -/
def digitsToNat (ds : List Char) : ℕ :=
  ds.foldl (fun acc c => 10 * acc + (c.toNat - Char.toNat '0')) 0

/-- Split a character list at every '.', keeping empty groups. -/
def dotSplit : List Char → List (List Char)
  | [] => [[]]
  | c :: cs =>
    let rest := dotSplit cs
    if c = '.' then [] :: rest
    else
      match rest with
      | [] => [[c]]
      | g :: gs => (c :: g) :: gs

/-- Python `float()` on a captured field, idealised to an exact rational:
`none` models the `ValueError` raised on an empty string, a stray
character, a lone "." or more than one "."; otherwise the exact decimal
value (the captures here are small and exactly representable, so the
IEEE-double rounding of the source is the identity on them). -/
def pyFloat (f : String) : Option ℚ :=
  let cs := f.toList
  if cs.isEmpty then none
  else if !(cs.all isFieldC) then none
  else
    match dotSplit cs with
    | [intPart] => some (digitsToNat intPart : ℚ)
    | [intPart, fracPart] =>
      if intPart.isEmpty && fracPart.isEmpty then none
      else some ((digitsToNat intPart : ℚ) +
        (digitsToNat fracPart : ℚ) / (10 : ℚ) ^ fracPart.length)
    | _ => none

/-- `get_load_averages` (system.py lines 125–141).  Collaborators are
parameters: `data` is what `read_file("/proc/loadavg")` returns and
`core_count` what `get_core_count()` returns.  A failed search, a float
`ValueError` or a zero core count (`ZeroDivisionError`) yield `none`,
modelling the raised exception; otherwise the dict
`{1: one/cores, 5: five/cores, 15: fifteen/cores}` in insertion order. -/
def get_load_averages (data : String) (core_count : ℕ) :
    Option (List (ℕ × ℚ)) :=
  match searchLoad data.toList with
  | none => none
  | some (f1, f2, f3) =>
    match pyFloat f1, pyFloat f2, pyFloat f3 with
    | some q1, some q2, some q3 =>
      if core_count = 0 then none
      else some [(1, q1 / (core_count : ℚ)), (5, q2 / (core_count : ℚ)),
                 (15, q3 / (core_count : ℚ))]
    | _, _, _ => none

theorem searchLoad_sample :
    searchLoad ("1.0 2.0 3.0 4/400 123").toList = some ("1.0", "2.0", "3.0") := by
  decide

theorem pyFloat_sample1 : pyFloat "1.0" = some 1 := by
  have h : pyFloat "1.0" =
      some (((1 : ℕ) : ℚ) + ((0 : ℕ) : ℚ) / (10 : ℚ) ^ (1 : ℕ)) := rfl
  rw [h]
  norm_num

theorem pyFloat_sample2 : pyFloat "2.0" = some 2 := by
  have h : pyFloat "2.0" =
      some (((2 : ℕ) : ℚ) + ((0 : ℕ) : ℚ) / (10 : ℚ) ^ (1 : ℕ)) := rfl
  rw [h]
  norm_num

theorem pyFloat_sample3 : pyFloat "3.0" = some 3 := by
  have h : pyFloat "3.0" =
      some (((3 : ℕ) : ℚ) + ((0 : ℕ) : ℚ) / (10 : ℚ) ^ (1 : ℕ)) := rfl
  rw [h]
  norm_num

/-- **C8.** `get_load_averages` extracts the first three decimal fields
of the pseudo-file content, divides each by the logical core count, and
returns them keyed by 1, 5 and 15 in that order; with content
`"1.0 2.0 3.0 4/400 123"` and core count 2 it returns
`{1: 0.5, 5: 1.0, 15: 1.5}`. -/
theorem claim_C8 :
    (∀ (data : String) (core_count : ℕ) (f1 f2 f3 : String) (q1 q2 q3 : ℚ),
      searchLoad data.toList = some (f1, f2, f3) →
      pyFloat f1 = some q1 → pyFloat f2 = some q2 → pyFloat f3 = some q3 →
      core_count ≠ 0 →
      get_load_averages data core_count =
        some [(1, q1 / (core_count : ℚ)), (5, q2 / (core_count : ℚ)),
              (15, q3 / (core_count : ℚ))]) ∧
    get_load_averages "1.0 2.0 3.0 4/400 123" 2 =
      some [(1, (1 : ℚ) / 2), (5, 1), (15, (3 : ℚ) / 2)] := by
  constructor
  · intro data n f1 f2 f3 q1 q2 q3 hs h1 h2 h3 hn
    rw [get_load_averages, hs]
    dsimp only
    rw [h1, h2, h3]
    dsimp only
    rw [if_neg hn]
  · rw [get_load_averages, searchLoad_sample]
    dsimp only
    rw [pyFloat_sample1, pyFloat_sample2, pyFloat_sample3]
    dsimp only
    rw [if_neg (by decide : ¬((2 : ℕ) = 0))]
    norm_num [Option.some.injEq, List.cons.injEq, Prod.mk.injEq]

theorem claim_C8_witness :
    get_load_averages "1.0 2.0 3.0 4/400 123" 2 =
      some [(1, (1 : ℚ) / ((2 : ℕ) : ℚ)), (5, (2 : ℚ) / ((2 : ℕ) : ℚ)),
            (15, (3 : ℚ) / ((2 : ℕ) : ℚ))] :=
  claim_C8.1 "1.0 2.0 3.0 4/400 123" 2 "1.0" "2.0" "3.0" 1 2 3
    searchLoad_sample pyFloat_sample1 pyFloat_sample2 pyFloat_sample3
    (by decide)

end Vyos
